import Mathlib

/-!
Shallow embedding of the marketplace backend (`src/server.js`, the persisted
variant, and `src/unnamed/part_000`, the in-memory variant).

Modelling conventions:
* JSON values appearing in request bodies and stored records are modelled by
  `JVal` (null, integer numbers, strings, booleans).  Numeric JSON values are
  restricted to integers, which covers every value the specification's claims
  exercise.
* A JavaScript variable that may be `undefined` (a destructured request-body
  field, an absent query parameter, an absent header) is modelled as
  `Option JVal` / `Option String`, with `none` standing for `undefined`.
* `new Date().toISOString()` is nondeterministic, so every creation handler
  takes the timestamp as an explicit `now : String` argument.
* Query parameters arrive as strings in Express; `minSalary` / `minPrice` are
  modelled after the `parseFloat` + `isNaN` step: `some m` stands for a truthy
  parameter string parsing to the number `m`, `none` for an absent, falsy or
  non-numeric parameter (in which case the source skips the filter).
* The data file written by `saveData` / read by `loadData` is modelled by
  `FileSt`: `missing` (no file), `corrupt` (unreadable or unparsable JSON),
  or `content` of a parsed object whose two fields may each be absent.
-/

/-- JSON-style values as used by the request bodies and stored records. -/
inductive JVal where
  | null
  | num (n : Int)
  | str (s : String)
  | boolean (b : Bool)
deriving DecidableEq, Repr

/-- JavaScript truthiness for `JVal` (`0`, `""`, `null`, `false` are falsy). -/
def JVal.truthy : JVal → Bool
  | .null => false
  | .num n => n != 0
  | .str s => s != ""
  | .boolean b => b

/-- Truthiness of a possibly-`undefined` value (`undefined` is falsy). -/
def truthyOpt (v : Option JVal) : Bool :=
  (v.getD JVal.null).truthy

/-- The JavaScript expression `x || dflt`, where `x` may be `undefined`. -/
def jsOr (v : Option JVal) (dflt : JVal) : JVal :=
  match v with
  | some x => if x.truthy then x else dflt
  | none => dflt

/-- The JavaScript expression `typeof x !== 'undefined' ? x : dflt`. -/
def jsIfDefined (v : Option JVal) (dflt : JVal) : JVal :=
  v.getD dflt

/-- Whether the character list `sub` occurs at the start of `hay`. -/
def strStartsWith : List Char → List Char → Bool
  | _, [] => true
  | [], _ :: _ => false
  | c :: cs, d :: ds => c == d && strStartsWith cs ds

/-- Whether the character list `sub` occurs somewhere inside `hay`. -/
def listIncludes : List Char → List Char → Bool
  | [], sub => strStartsWith [] sub
  | c :: cs, sub => strStartsWith (c :: cs) sub || listIncludes cs sub

/-- JavaScript `hay.includes(sub)` on strings. -/
def strIncludes (hay sub : String) : Bool :=
  listIncludes hay.toList sub.toList

/-- Lowers one ASCII letter; `toLowerCase` restricted to the ASCII range,
which covers the strings this development exercises. -/
def charLower (c : Char) : Char :=
  if 65 ≤ c.toNat ∧ c.toNat ≤ 90 then Char.ofNat (c.toNat + 32) else c

/-- JavaScript `s.toLowerCase()` (ASCII range). -/
def strLower (s : String) : String :=
  ⟨s.toList.map charLower⟩

/-- The comparison `v >= m` for a `JVal` against a number, as used by the
salary / price filters; only numeric values compare greater-or-equal. -/
def JVal.geNum : JVal → Int → Bool
  | .num n, m => m ≤ n
  | _, _ => false

/-- Replaces the first element satisfying `p` by its image under `f`;
models JavaScript `find` followed by in-place mutation of the found object. -/
def updateFirst (p : α → Bool) (f : α → α) : List α → List α
  | [] => []
  | x :: xs => if p x then f x :: xs else x :: updateFirst p f xs

/-- Removes the first element satisfying `p`; models `findIndex` followed by
`splice(index, 1)`. -/
def removeFirst (p : α → Bool) : List α → List α
  | [] => []
  | x :: xs => if p x then xs else x :: removeFirst p xs

/-! ### Persistence adapter (`loadData` / `saveData`, src/server.js:31-50) -/

/-- In-memory persisted shape: `{ nextId: <number>, items: <array> }`. -/
structure PersistData (α : Type) where
  nextId : Int
  items : List α
deriving DecidableEq, Repr

/-- A successfully parsed data file; either top-level key may be absent
(or `null` / non-array for `items`), modelled by `none`. -/
structure ParsedFile (α : Type) where
  nextId : Option Int
  items : Option (List α)
deriving DecidableEq, Repr

/-- The state of one resource type's data file. -/
inductive FileSt (α : Type) where
  | missing
  | corrupt
  | content (parsed : ParsedFile α)
deriving DecidableEq, Repr

/-- `loadData` (src/server.js:31-41): reading a missing or unparsable file
throws inside the `try`, and the `catch` returns the defaults; otherwise
`parsed.nextId || defaults.nextId` (so a stored `0` falls back) and
`parsed.items || defaults.items` (an array is always truthy). -/
def loadData {α : Type} (f : FileSt α) (defaults : PersistData α) : PersistData α :=
  match f with
  | .missing => defaults
  | .corrupt => defaults
  | .content p =>
      { nextId := match p.nextId with
          | some n => if n != 0 then n else defaults.nextId
          | none => defaults.nextId
        items := p.items.getD defaults.items }

/-- `saveData` (src/server.js:46-50): serializes `{ nextId, items }` and
fully replaces the file. -/
def saveData {α : Type} (d : PersistData α) : FileSt α :=
  .content { nextId := some d.nextId, items := some d.items }

/-! ### Classifieds (persisted variant, src/server.js:125-190) -/

/-- A classified ad as built by `POST /api/classifieds` (src/server.js:139-147). -/
structure Classified where
  id : Int
  title : JVal
  description : JVal
  category : JVal
  price : JVal
  dateCreated : String
  owner : String
deriving DecidableEq, Repr

/-- Request body for classified creation / update; `none` = key absent. -/
structure ClassifiedBody where
  title : Option JVal := none
  description : Option JVal := none
  category : Option JVal := none
  price : Option JVal := none
deriving DecidableEq, Repr

/-- An authenticated identity stored in the session registry. -/
structure Session where
  username : String
  role : String
deriving DecidableEq, Repr

/-- The in-memory session store `sessions` (src/server.js:17), token → user. -/
abbrev Sessions := List (String × Session)

/-- `sessions[token]` lookup. -/
def lookupSession (sess : Sessions) (tok : String) : Option Session :=
  (sess.find? (fun p => p.1 == tok)).map (·.2)

/-- The `authenticate` middleware (src/server.js:114-121): the request is
rejected when the `Authorization` header is absent (`undefined`), empty
(falsy) or not a key of `sessions`. -/
def authHeaderUser (sess : Sessions) (auth : Option String) : Option Session :=
  match auth with
  | none => none
  | some tok => if tok == "" then none else lookupSession sess tok

/-- Mutable server state owned by the classifieds controller: the counter
`nextAdId`, the array `classifieds`, and the `classifieds.json` file. -/
structure ClassifiedsState where
  nextAdId : Int
  classifieds : List Classified
  file : FileSt Classified
deriving DecidableEq, Repr

/-- Response of `POST /api/classifieds`. -/
inductive PostClassifiedResp where
  | unauthorized
  | badRequest
  | created (ad : Classified)
deriving DecidableEq, Repr

/-- `POST /api/classifieds` (src/server.js:134-152): `authenticate`, then the
required-field check `!title || !description || !category`, then the record is
built (`price: typeof price !== 'undefined' ? price : null`), pushed, and the
file rewritten with the already-incremented `nextAdId`. -/
def postClassified (sess : Sessions) (now : String) (st : ClassifiedsState)
    (auth : Option String) (b : ClassifiedBody) :
    PostClassifiedResp × ClassifiedsState :=
  match authHeaderUser sess auth with
  | none => (.unauthorized, st)
  | some user =>
      if !truthyOpt b.title || !truthyOpt b.description || !truthyOpt b.category then
        (.badRequest, st)
      else
        let ad : Classified :=
          { id := st.nextAdId
            title := jsIfDefined b.title .null
            description := jsIfDefined b.description .null
            category := jsIfDefined b.category .null
            price := jsIfDefined b.price .null
            dateCreated := now
            owner := user.username }
        let items := st.classifieds ++ [ad]
        (.created ad,
         { nextAdId := st.nextAdId + 1
           classifieds := items
           file := saveData { nextId := st.nextAdId + 1, items := items } })

/-- Response of a `PUT`/`GET`-by-id endpoint. -/
inductive IdResp (α : Type) where
  | notFound
  | ok (x : α)
deriving DecidableEq, Repr

/-- The field assignments of `PUT /api/classifieds/:id` (src/server.js:172-175):
`ad.title = title || ad.title` and friends, and
`ad.price = typeof price !== 'undefined' ? price : ad.price`. -/
def applyClassifiedPut (ad : Classified) (b : ClassifiedBody) : Classified :=
  { ad with
    title := jsOr b.title ad.title
    description := jsOr b.description ad.description
    category := jsOr b.category ad.category
    price := jsIfDefined b.price ad.price }

/-- `PUT /api/classifieds/:id` (src/server.js:165-178): find the ad by id
(404 if absent), mutate it in place, rewrite the file. -/
def putClassified (st : ClassifiedsState) (i : Int) (b : ClassifiedBody) :
    IdResp Classified × ClassifiedsState :=
  match st.classifieds.find? (fun a => a.id == i) with
  | none => (.notFound, st)
  | some ad =>
      let items := updateFirst (fun a => a.id == i) (fun a => applyClassifiedPut a b)
        st.classifieds
      (.ok (applyClassifiedPut ad b),
       { st with
          classifieds := items
          file := saveData { nextId := st.nextAdId, items := items } })

/-- Response of a `DELETE` endpoint. -/
inductive DelResp where
  | notFound
  | deleted
deriving DecidableEq, Repr

/-- `DELETE /api/classifieds/:id` (src/server.js:181-190): `findIndex`, 404 if
`-1`, else `splice(index, 1)` and rewrite the file with the unchanged
`nextAdId`. -/
def deleteClassified (st : ClassifiedsState) (i : Int) :
    DelResp × ClassifiedsState :=
  if (st.classifieds.find? (fun a => a.id == i)).isSome then
    let items := removeFirst (fun a => a.id == i) st.classifieds
    (.deleted,
     { st with
        classifieds := items
        file := saveData { nextId := st.nextAdId, items := items } })
  else
    (.notFound, st)

/-- `GET /api/classifieds/:id` (src/server.js:155-162). -/
def getClassified (st : ClassifiedsState) (i : Int) : IdResp Classified :=
  match st.classifieds.find? (fun a => a.id == i) with
  | none => .notFound
  | some ad => .ok ad

/-! ### Vacancies (src/server.js:193-271) -/

/-- A job vacancy as built by `POST /api/vacancies` (src/server.js:221-228). -/
structure Vacancy where
  id : Int
  title : JVal
  company : JVal
  description : JVal
  salary : JVal
  dateCreated : String
deriving DecidableEq, Repr

/-- Request body for vacancy creation / update; `none` = key absent. -/
structure VacancyBody where
  title : Option JVal := none
  company : Option JVal := none
  description : Option JVal := none
  salary : Option JVal := none
deriving DecidableEq, Repr

/-- Query parameters of `GET /api/vacancies` (src/server.js:196-213).
`category` is the raw string (`none` = absent); `minSalary` is modelled after
`parseFloat`: `some m` is a truthy parameter parsing to `m`, `none` an
absent/falsy/NaN one, for which the source skips the filter. -/
structure VacancyQuery where
  category : Option String := none
  minSalary : Option Int := none
deriving DecidableEq, Repr

/-- `v.company.toLowerCase().includes(categoryLower)`; the source only ever
calls `toLowerCase` on string companies, so a non-string company is modelled
as not matching. -/
def companyMatches (cat : String) (v : Vacancy) : Bool :=
  match v.company with
  | .str s => strIncludes (strLower s) (strLower cat)
  | _ => false

/-- `GET /api/vacancies` (src/server.js:196-213): the `category` substring
filter when the parameter is truthy, then the
`v.salary !== null && v.salary >= min` filter when `minSalary` is a truthy
parameter parsing to a number. -/
def getVacancies (vs : List Vacancy) (q : VacancyQuery) : List Vacancy :=
  let r1 := match q.category with
    | some c => if c != "" then vs.filter (companyMatches c) else vs
    | none => vs
  match q.minSalary with
  | some m => r1.filter (fun v => v.salary != .null && v.salary.geNum m)
  | none => r1

/-- Response of a creation endpoint without authentication. -/
inductive PostResp (α : Type) where
  | badRequest
  | created (x : α)
deriving DecidableEq, Repr

/-- Mutable state of the vacancies controller. -/
structure VacanciesState where
  nextVacancyId : Int
  vacancies : List Vacancy
  file : FileSt Vacancy
deriving DecidableEq, Repr

/-- `POST /api/vacancies` (src/server.js:216-233). -/
def postVacancy (now : String) (st : VacanciesState) (b : VacancyBody) :
    PostResp Vacancy × VacanciesState :=
  if !truthyOpt b.title || !truthyOpt b.company || !truthyOpt b.description then
    (.badRequest, st)
  else
    let v : Vacancy :=
      { id := st.nextVacancyId
        title := jsIfDefined b.title .null
        company := jsIfDefined b.company .null
        description := jsIfDefined b.description .null
        salary := jsIfDefined b.salary .null
        dateCreated := now }
    let items := st.vacancies ++ [v]
    (.created v,
     { nextVacancyId := st.nextVacancyId + 1
       vacancies := items
       file := saveData { nextId := st.nextVacancyId + 1, items := items } })

/-- The field assignments of `PUT /api/vacancies/:id` (src/server.js:253-256):
`if (title) vacancy.title = title;` assigns only truthy values, which has the
same result as `title || vacancy.title`; salary uses the
`typeof salary !== 'undefined'` test. -/
def applyVacancyPut (v : Vacancy) (b : VacancyBody) : Vacancy :=
  { v with
    title := jsOr b.title v.title
    company := jsOr b.company v.company
    description := jsOr b.description v.description
    salary := jsIfDefined b.salary v.salary }

/-- `PUT /api/vacancies/:id` (src/server.js:246-259). -/
def putVacancy (st : VacanciesState) (i : Int) (b : VacancyBody) :
    IdResp Vacancy × VacanciesState :=
  match st.vacancies.find? (fun v => v.id == i) with
  | none => (.notFound, st)
  | some v =>
      let items := updateFirst (fun w => w.id == i) (fun w => applyVacancyPut w b)
        st.vacancies
      (.ok (applyVacancyPut v b),
       { st with
          vacancies := items
          file := saveData { nextId := st.nextVacancyId, items := items } })

/-- `DELETE /api/vacancies/:id` (src/server.js:262-271). -/
def deleteVacancy (st : VacanciesState) (i : Int) : DelResp × VacanciesState :=
  if (st.vacancies.find? (fun v => v.id == i)).isSome then
    let items := removeFirst (fun v => v.id == i) st.vacancies
    (.deleted,
     { st with
        vacancies := items
        file := saveData { nextId := st.nextVacancyId, items := items } })
  else
    (.notFound, st)

/-- `GET /api/vacancies/:id` (src/server.js:236-243). -/
def getVacancy (st : VacanciesState) (i : Int) : IdResp Vacancy :=
  match st.vacancies.find? (fun v => v.id == i) with
  | none => .notFound
  | some v => .ok v

/-! ### Companies (src/server.js:273-344) -/

/-- A company as built by `POST /api/companies` (src/server.js:294-301). -/
structure Company where
  id : Int
  name : JVal
  category : JVal
  description : JVal
  rating : JVal
  dateCreated : String
deriving DecidableEq, Repr

/-- Request body for company creation / update; `none` = key absent. -/
structure CompanyBody where
  name : Option JVal := none
  category : Option JVal := none
  description : Option JVal := none
  rating : Option JVal := none
deriving DecidableEq, Repr

/-- Mutable state of the companies controller: counter, array,
`companies.json`. -/
structure CompaniesState where
  nextCompanyId : Int
  companies : List Company
  file : FileSt Company
deriving DecidableEq, Repr

/-- `GET /api/companies` (src/server.js:276-286): optional case-insensitive
substring filter on `category`. -/
def getCompanies (cs : List Company) (category : Option String) : List Company :=
  match category with
  | some c =>
      if c != "" then
        cs.filter (fun co =>
          match co.category with
          | .str s => strIncludes (strLower s) (strLower c)
          | _ => false)
      else cs
  | none => cs

/-- `POST /api/companies` (src/server.js:289-306). -/
def postCompany (now : String) (st : CompaniesState) (b : CompanyBody) :
    PostResp Company × CompaniesState :=
  if !truthyOpt b.name || !truthyOpt b.category || !truthyOpt b.description then
    (.badRequest, st)
  else
    let co : Company :=
      { id := st.nextCompanyId
        name := jsIfDefined b.name .null
        category := jsIfDefined b.category .null
        description := jsIfDefined b.description .null
        rating := jsIfDefined b.rating .null
        dateCreated := now }
    let items := st.companies ++ [co]
    (.created co,
     { nextCompanyId := st.nextCompanyId + 1
       companies := items
       file := saveData { nextId := st.nextCompanyId + 1, items := items } })

/-- The field assignments of `PUT /api/companies/:id` (src/server.js:326-329). -/
def applyCompanyPut (co : Company) (b : CompanyBody) : Company :=
  { co with
    name := jsOr b.name co.name
    category := jsOr b.category co.category
    description := jsOr b.description co.description
    rating := jsIfDefined b.rating co.rating }

/-- `PUT /api/companies/:id` (src/server.js:319-332). -/
def putCompany (st : CompaniesState) (i : Int) (b : CompanyBody) :
    IdResp Company × CompaniesState :=
  match st.companies.find? (fun c => c.id == i) with
  | none => (.notFound, st)
  | some co =>
      let items := updateFirst (fun c => c.id == i) (fun c => applyCompanyPut c b)
        st.companies
      (.ok (applyCompanyPut co b),
       { st with
          companies := items
          file := saveData { nextId := st.nextCompanyId, items := items } })

/-- `DELETE /api/companies/:id` (src/server.js:335-344). -/
def deleteCompany (st : CompaniesState) (i : Int) : DelResp × CompaniesState :=
  if (st.companies.find? (fun c => c.id == i)).isSome then
    let items := removeFirst (fun c => c.id == i) st.companies
    (.deleted,
     { st with
        companies := items
        file := saveData { nextId := st.nextCompanyId, items := items } })
  else
    (.notFound, st)

/-- `GET /api/companies/:id` (src/server.js:309-316). -/
def getCompany (st : CompaniesState) (i : Int) : IdResp Company :=
  match st.companies.find? (fun c => c.id == i) with
  | none => .notFound
  | some co => .ok co

/-! ### Real estate (src/server.js:346-425) -/

/-- A property as built by `POST /api/real-estate` (src/server.js:373-381). -/
structure Property where
  id : Int
  type : JVal
  title : JVal
  description : JVal
  price : JVal
  location : JVal
  dateCreated : String
deriving DecidableEq, Repr

/-- Request body for property creation / update; `none` = key absent. -/
structure PropertyBody where
  type : Option JVal := none
  title : Option JVal := none
  description : Option JVal := none
  price : Option JVal := none
  location : Option JVal := none
deriving DecidableEq, Repr

/-- Query parameters of `GET /api/real-estate` (src/server.js:350-365);
`minPrice` is modelled after `parseFloat` exactly like `minSalary`. -/
structure PropertyQuery where
  type : Option String := none
  minPrice : Option Int := none
deriving DecidableEq, Repr

/-- `p.type.toLowerCase() === typeLower` — exact case-insensitive equality,
not a substring test; non-string types are modelled as not matching. -/
def typeMatches (t : String) (p : Property) : Bool :=
  match p.type with
  | .str s => strLower s == strLower t
  | _ => false

/-- `GET /api/real-estate` (src/server.js:350-365): exact case-insensitive
`type` filter when the parameter is truthy, then the
`p.price !== null && p.price >= min` filter. -/
def getRealEstate (ps : List Property) (q : PropertyQuery) : List Property :=
  let r1 := match q.type with
    | some t => if t != "" then ps.filter (typeMatches t) else ps
    | none => ps
  match q.minPrice with
  | some m => r1.filter (fun p => p.price != .null && p.price.geNum m)
  | none => r1

/-- Mutable state of the real-estate controller. -/
structure RealEstateState where
  nextPropertyId : Int
  realEstate : List Property
  file : FileSt Property
deriving DecidableEq, Repr

/-- `POST /api/real-estate` (src/server.js:368-386): `price` uses the
`typeof price !== 'undefined'` test, but `location: location || null`
coerces any falsy location to `null`. -/
def postProperty (now : String) (st : RealEstateState) (b : PropertyBody) :
    PostResp Property × RealEstateState :=
  if !truthyOpt b.type || !truthyOpt b.title || !truthyOpt b.description then
    (.badRequest, st)
  else
    let p : Property :=
      { id := st.nextPropertyId
        type := jsIfDefined b.type .null
        title := jsIfDefined b.title .null
        description := jsIfDefined b.description .null
        price := jsIfDefined b.price .null
        location := jsOr b.location .null
        dateCreated := now }
    let items := st.realEstate ++ [p]
    (.created p,
     { nextPropertyId := st.nextPropertyId + 1
       realEstate := items
       file := saveData { nextId := st.nextPropertyId + 1, items := items } })

/-- The field assignments of `PUT /api/real-estate/:id` (src/server.js:406-410):
truthiness-guarded assignment for `type`, `title`, `description`, and the
`typeof x !== 'undefined'` test for `price` and `location`. -/
def applyPropertyPut (p : Property) (b : PropertyBody) : Property :=
  { p with
    type := jsOr b.type p.type
    title := jsOr b.title p.title
    description := jsOr b.description p.description
    price := jsIfDefined b.price p.price
    location := jsIfDefined b.location p.location }

/-- `PUT /api/real-estate/:id` (src/server.js:399-413). -/
def putProperty (st : RealEstateState) (i : Int) (b : PropertyBody) :
    IdResp Property × RealEstateState :=
  match st.realEstate.find? (fun p => p.id == i) with
  | none => (.notFound, st)
  | some p =>
      let items := updateFirst (fun r => r.id == i) (fun r => applyPropertyPut r b)
        st.realEstate
      (.ok (applyPropertyPut p b),
       { st with
          realEstate := items
          file := saveData { nextId := st.nextPropertyId, items := items } })

/-! ### In-memory variant of classified creation (src/unnamed/part_000:71-86) -/

/-- A classified ad of the in-memory variant (no `owner` field). -/
structure MemClassified where
  id : Int
  title : JVal
  description : JVal
  category : JVal
  price : JVal
  dateCreated : String
deriving DecidableEq, Repr

/-- `POST /api/classifieds` in the in-memory variant
(src/unnamed/part_000:71-86): no authentication, and the stored price is
`price: price || null`, which coerces a falsy price (such as `0`) to `null`. -/
def postClassifiedMem (now : String) (nextAdId : Int) (classifieds : List MemClassified)
    (b : ClassifiedBody) : PostResp MemClassified × (Int × List MemClassified) :=
  if !truthyOpt b.title || !truthyOpt b.description || !truthyOpt b.category then
    (.badRequest, (nextAdId, classifieds))
  else
    let ad : MemClassified :=
      { id := nextAdId
        title := jsIfDefined b.title .null
        description := jsIfDefined b.description .null
        category := jsIfDefined b.category .null
        price := jsOr b.price .null
        dateCreated := now }
    (.created ad, (nextAdId + 1, classifieds ++ [ad]))

/-! ### Operation sequences over the classifieds controller (for the id
allocation invariant) and the companies controller (for persistence). -/

/-- One client operation against the classifieds API. -/
inductive CsOp where
  | post (auth : Option String) (b : ClassifiedBody) (now : String)
  | put (i : Int) (b : ClassifiedBody)
  | del (i : Int)
deriving Repr

/-- Runs one classifieds operation; also returns the id issued by a
successful creation, if any. -/
def csStep (sess : Sessions) (st : ClassifiedsState) : CsOp → ClassifiedsState × Option Int
  | .post auth b now =>
      match postClassified sess now st auth b with
      | (.created ad, st') => (st', some ad.id)
      | (_, st') => (st', none)
  | .put i b => ((putClassified st i b).2, none)
  | .del i => ((deleteClassified st i).2, none)

/-- The ids issued by successful creations along a sequence of operations,
in order of issue. -/
def csIssued (sess : Sessions) (st : ClassifiedsState) : List CsOp → List Int
  | [] => []
  | op :: rest =>
      match csStep sess st op with
      | (st', some i) => i :: csIssued sess st' rest
      | (st', none) => csIssued sess st' rest

/-- One client operation against the companies API. -/
inductive CoOp where
  | post (b : CompanyBody) (now : String)
  | put (i : Int) (b : CompanyBody)
  | del (i : Int)
deriving Repr

/-- Runs one companies operation. -/
def coStep (st : CompaniesState) : CoOp → CompaniesState
  | .post b now => (postCompany now st b).2
  | .put i b => (putCompany st i b).2
  | .del i => (deleteCompany st i).2

/-- Runs a sequence of companies operations. -/
def coRun (st : CompaniesState) : List CoOp → CompaniesState
  | [] => st
  | op :: rest => coRun (coStep st op) rest

/-- Boot of the companies controller (src/server.js:68-70): load
`companies.json` with defaults `{ nextId: 1, items: [] }`. -/
def bootCompanies (f : FileSt Company) : CompaniesState :=
  let d := loadData f { nextId := 1, items := [] }
  { nextCompanyId := d.nextId, companies := d.items, file := f }

/-- The process state on very first run: no `companies.json` yet. -/
def initCompanies : CompaniesState := bootCompanies .missing

/-- Restarting the process: reboot from the current durable file. -/
def restartCompanies (st : CompaniesState) : CompaniesState := bootCompanies st.file

/-- Linking the process state to its durable file: either no mutation has
happened since first boot (file still missing, store at its defaults), or the
file is exactly the last write-through of the current store. -/
def coConsistent (st : CompaniesState) : Prop :=
  (st.file = .missing ∧ st.nextCompanyId = 1 ∧ st.companies = []) ∨
  st.file = saveData { nextId := st.nextCompanyId, items := st.companies }

/-- Projects a field out of a creation response, `none` on failure. -/
def postRespField {α : Type} (f : α → JVal) : PostResp α → Option JVal
  | .created x => some (f x)
  | .badRequest => none

/-- Projects the stored price out of a persisted-variant classified creation
response. -/
def postClassifiedRespPrice : PostClassifiedResp → Option JVal
  | .created ad => some ad.price
  | _ => none

/-! ### Helper lemmas -/

theorem updateFirst_length (p : α → Bool) (f : α → α) (l : List α) :
    (updateFirst p f l).length = l.length := by
  induction l with
  | nil => rfl
  | cons x xs ih =>
      unfold updateFirst
      split <;> simp [ih]

theorem updateFirst_getElem?_of_ne (p : α → Bool) (f : α → α) (l : List α) (k : Nat)
    (x : α) (hx : l[k]? = some x) (hp : p x = false) :
    (updateFirst p f l)[k]? = some x := by
  induction l generalizing k with
  | nil => simp at hx
  | cons y ys ih =>
      cases k with
      | zero =>
          rw [List.getElem?_cons_zero] at hx
          obtain rfl := Option.some.inj hx
          unfold updateFirst
          rw [hp]
          simp
      | succ k =>
          rw [List.getElem?_cons_succ] at hx
          unfold updateFirst
          split
          · simpa using hx
          · simpa using ih k hx

theorem find?_updateFirst (p q : α → Bool) (f : α → α) (l : List α)
    (h : ∀ x, p x = true → q x = false ∧ q (f x) = false) :
    (updateFirst p f l).find? q = l.find? q := by
  induction l with
  | nil => rfl
  | cons x xs ih =>
      unfold updateFirst
      by_cases hp : p x = true
      · rw [if_pos hp]
        obtain ⟨h1, h2⟩ := h x hp
        rw [List.find?_cons_of_neg _ (by simp [h2]),
            List.find?_cons_of_neg _ (by simp [h1])]
      · rw [if_neg hp]
        cases hq : q x with
        | true =>
            rw [List.find?_cons_of_pos _ hq, List.find?_cons_of_pos _ hq]
        | false =>
            rw [List.find?_cons_of_neg _ (by simp [hq]),
                List.find?_cons_of_neg _ (by simp [hq]), ih]

/-- Inversion of a successful `POST /api/classifieds`. -/
theorem postClassified_created (sess : Sessions) (now : String) (st : ClassifiedsState)
    (auth : Option String) (b : ClassifiedBody) (ad : Classified) (st' : ClassifiedsState)
    (h : postClassified sess now st auth b = (.created ad, st')) :
    ad.id = st.nextAdId ∧ st'.nextAdId = st.nextAdId + 1 ∧
      st'.classifieds = st.classifieds ++ [ad] := by
  cases hA : authHeaderUser sess auth with
  | none => simp [postClassified, hA] at h
  | some u =>
      simp only [postClassified, hA] at h
      split at h
      · simp at h
      · rw [Prod.mk.injEq] at h
        obtain ⟨h1, h2⟩ := h
        obtain rfl := PostClassifiedResp.created.inj h1
        subst h2
        exact ⟨rfl, rfl, rfl⟩

theorem putClassified_nextAdId (st : ClassifiedsState) (i : Int) (b : ClassifiedBody) :
    ((putClassified st i b).2).nextAdId = st.nextAdId := by
  cases hf : st.classifieds.find? (fun a => a.id == i) with
  | none => simp [putClassified, hf]
  | some ad => simp [putClassified, hf]

theorem deleteClassified_nextAdId (st : ClassifiedsState) (i : Int) :
    ((deleteClassified st i).2).nextAdId = st.nextAdId := by
  unfold deleteClassified
  split <;> rfl

theorem postClassified_nextAdId_le (sess : Sessions) (now : String) (st : ClassifiedsState)
    (auth : Option String) (b : ClassifiedBody) :
    st.nextAdId ≤ ((postClassified sess now st auth b).2).nextAdId := by
  cases hA : authHeaderUser sess auth with
  | none => simp [postClassified, hA]
  | some u =>
      simp only [postClassified, hA]
      split
      · exact le_refl _
      · simp only []
        omega

theorem csStep_nextAdId_le (sess : Sessions) (st : ClassifiedsState) (op : CsOp) :
    st.nextAdId ≤ ((csStep sess st op).1).nextAdId := by
  cases op with
  | post auth b now =>
      have hle := postClassified_nextAdId_le sess now st auth b
      cases hp : postClassified sess now st auth b with
      | mk r st2 =>
          rw [hp] at hle
          cases r <;> simpa [csStep, hp] using hle
  | put i b =>
      have h := putClassified_nextAdId st i b
      simp [csStep, h]
  | del i =>
      have h := deleteClassified_nextAdId st i
      simp [csStep, h]

theorem csStep_issued (sess : Sessions) (st : ClassifiedsState) (op : CsOp) (i : Int)
    (st' : ClassifiedsState) (h : csStep sess st op = (st', some i)) :
    i = st.nextAdId ∧ st'.nextAdId = st.nextAdId + 1 := by
  cases op with
  | post auth b now =>
      simp only [csStep] at h
      cases hp : postClassified sess now st auth b with
      | mk r st2 =>
          rw [hp] at h
          cases r with
          | unauthorized => simp at h
          | badRequest => simp at h
          | created ad =>
              have h' : st2 = st' ∧ ad.id = i := by
                have hh : ((st2 : ClassifiedsState), some ad.id) = (st', some i) := h
                simpa using hh
              obtain ⟨rfl, rfl⟩ := h'
              obtain ⟨h1, h2, _⟩ := postClassified_created sess now st auth b ad st2 hp
              exact ⟨h1, h2⟩
  | put j b => simp [csStep] at h
  | del j => simp [csStep] at h

theorem csIssued_lb (sess : Sessions) :
    ∀ (ops : List CsOp) (st : ClassifiedsState) (x : Int),
      x ∈ csIssued sess st ops → st.nextAdId ≤ x := by
  intro ops
  induction ops with
  | nil => intro st x hx; simp [csIssued] at hx
  | cons op rest ih =>
      intro st x hx
      simp only [csIssued] at hx
      cases hstep : csStep sess st op with
      | mk st' iss =>
          rw [hstep] at hx
          cases iss with
          | none =>
              have hx' : x ∈ csIssued sess st' rest := hx
              have h1 := csStep_nextAdId_le sess st op
              rw [hstep] at h1
              exact le_trans h1 (ih st' x hx')
          | some j =>
              have hx' : x ∈ j :: csIssued sess st' rest := hx
              obtain ⟨hj, h2⟩ := csStep_issued sess st op j st' hstep
              rcases List.mem_cons.mp hx' with rfl | hmem
              · omega
              · have h3 := ih st' x hmem
                omega

theorem csIssued_pairwise (sess : Sessions) :
    ∀ (ops : List CsOp) (st : ClassifiedsState),
      List.Pairwise (· < ·) (csIssued sess st ops) := by
  intro ops
  induction ops with
  | nil => intro st; simp [csIssued]
  | cons op rest ih =>
      intro st
      simp only [csIssued]
      cases hstep : csStep sess st op with
      | mk st' iss =>
          cases iss with
          | none => exact ih st'
          | some j =>
              show List.Pairwise (· < ·) (j :: csIssued sess st' rest)
              refine List.Pairwise.cons ?_ (ih st')
              intro y hy
              obtain ⟨rfl, h2⟩ := csStep_issued sess st op j st' hstep
              have h3 := csIssued_lb sess rest st' y hy
              omega

/-- C1: a successful `POST /api/classifieds` assigns the new ad the current
value of `nextAdId` and increments the counter; `DELETE` never changes the
counter; and along any sequence of POST/PUT/DELETE operations the issued ids
are strictly increasing, so an id, once issued, is never assigned to a
later-created ad even after deletions. -/
theorem classifieds_id_allocation :
    (∀ (sess : Sessions) (now : String) (st : ClassifiedsState) (auth : Option String)
        (b : ClassifiedBody) (ad : Classified) (st' : ClassifiedsState),
        postClassified sess now st auth b = (.created ad, st') →
        ad.id = st.nextAdId ∧ st'.nextAdId = st.nextAdId + 1)
    ∧ (∀ (st : ClassifiedsState) (i : Int),
        ((deleteClassified st i).2).nextAdId = st.nextAdId)
    ∧ (∀ (sess : Sessions) (st : ClassifiedsState) (ops : List CsOp),
        List.Pairwise (· < ·) (csIssued sess st ops)) := by
  refine ⟨?_, deleteClassified_nextAdId, ?_⟩
  · intro sess now st auth b ad st' h
    obtain ⟨h1, h2, _⟩ := postClassified_created sess now st auth b ad st' h
    exact ⟨h1, h2⟩
  · intro sess st ops
    exact csIssued_pairwise sess ops st

/-- Witness for `classifieds_id_allocation`: a concrete authenticated POST on
a fresh store issues id 1 and bumps the counter to 2. -/
theorem classifieds_id_allocation_witness :
    (⟨1, .str "T", .str "D", .str "C", .null, "d0", "alice"⟩ : Classified).id =
        (⟨1, [], .missing⟩ : ClassifiedsState).nextAdId ∧
      (⟨2, [⟨1, .str "T", .str "D", .str "C", .null, "d0", "alice"⟩],
          .content ⟨some 2, some [⟨1, .str "T", .str "D", .str "C", .null, "d0", "alice"⟩]⟩⟩ :
          ClassifiedsState).nextAdId =
        (⟨1, [], .missing⟩ : ClassifiedsState).nextAdId + 1 :=
  classifieds_id_allocation.1 [("tok", ⟨"alice", "user"⟩)] "d0" ⟨1, [], .missing⟩
    (some "tok") ⟨some (.str "T"), some (.str "D"), some (.str "C"), none⟩
    ⟨1, .str "T", .str "D", .str "C", .null, "d0", "alice"⟩
    ⟨2, [⟨1, .str "T", .str "D", .str "C", .null, "d0", "alice"⟩],
      .content ⟨some 2, some [⟨1, .str "T", .str "D", .str "C", .null, "d0", "alice"⟩]⟩⟩
    (by decide)

theorem loadData_saveData {α : Type} (d defs : PersistData α) (h : d.nextId ≠ 0) :
    loadData (saveData d) defs = d := by
  simp [loadData, saveData, h]

theorem coStep_inv (st : CompaniesState) (op : CoOp)
    (h1 : 1 ≤ st.nextCompanyId) (h2 : coConsistent st) :
    1 ≤ (coStep st op).nextCompanyId ∧ coConsistent (coStep st op) := by
  cases op with
  | post b now =>
      show 1 ≤ ((postCompany now st b).2).nextCompanyId ∧
        coConsistent ((postCompany now st b).2)
      unfold postCompany
      split
      · exact ⟨h1, h2⟩
      · constructor
        · simp only []
          omega
        · right
          rfl
  | put i b =>
      show 1 ≤ ((putCompany st i b).2).nextCompanyId ∧
        coConsistent ((putCompany st i b).2)
      cases hf : st.companies.find? (fun c => c.id == i) with
      | none => simp only [putCompany, hf]; exact ⟨h1, h2⟩
      | some co =>
          simp only [putCompany, hf]
          exact ⟨h1, Or.inr rfl⟩
  | del i =>
      show 1 ≤ ((deleteCompany st i).2).nextCompanyId ∧
        coConsistent ((deleteCompany st i).2)
      unfold deleteCompany
      split
      · exact ⟨h1, Or.inr rfl⟩
      · exact ⟨h1, h2⟩

theorem coRun_inv : ∀ (ops : List CoOp) (st : CompaniesState),
    1 ≤ st.nextCompanyId → coConsistent st →
    1 ≤ (coRun st ops).nextCompanyId ∧ coConsistent (coRun st ops) := by
  intro ops
  induction ops with
  | nil => intro st h1 h2; exact ⟨h1, h2⟩
  | cons op rest ih =>
      intro st h1 h2
      obtain ⟨h1', h2'⟩ := coStep_inv st op h1 h2
      exact ih (coStep st op) h1' h2'

theorem restartCompanies_eq (st : CompaniesState)
    (h1 : 1 ≤ st.nextCompanyId) (h2 : coConsistent st) :
    restartCompanies st = st := by
  cases st with
  | mk n cs f =>
      rcases h2 with ⟨hf, hn, hc⟩ | hf
      · simp only at hf hn hc
        subst hf; subst hn; subst hc
        rfl
      · simp only at hf
        subst hf
        simp only at h1
        unfold restartCompanies bootCompanies
        simp [loadData, saveData]
        omega

/-- C2: persistence round-trip — `loadData` after `saveData` restores a
store state exactly (for any state with a nonzero counter, which covers
every reachable state); restarting the process (rebooting from the current
data file) is the identity on every store state reachable from first boot;
concretely, after creating three companies and restarting,
`GET /api/companies` returns exactly those three records with ids 1, 2, 3
preserved, and the next company created after the restart receives id 4. -/
theorem companies_persistence_round_trip :
    (∀ (α : Type) (d defs : PersistData α), d.nextId ≠ 0 →
        loadData (saveData d) defs = d)
    ∧ (∀ ops : List CoOp,
        restartCompanies (coRun initCompanies ops) = coRun initCompanies ops)
    ∧ (getCompanies
          ((restartCompanies (coRun initCompanies
            [.post ⟨some (.str "A"), some (.str "it"), some (.str "d"), none⟩ "t1",
             .post ⟨some (.str "B"), some (.str "it"), some (.str "d"), none⟩ "t2",
             .post ⟨some (.str "C"), some (.str "it"), some (.str "d"), none⟩ "t3"])).companies)
          none
        = [⟨1, .str "A", .str "it", .str "d", .null, "t1"⟩,
           ⟨2, .str "B", .str "it", .str "d", .null, "t2"⟩,
           ⟨3, .str "C", .str "it", .str "d", .null, "t3"⟩]
       ∧ (postCompany "t4"
            (restartCompanies (coRun initCompanies
              [.post ⟨some (.str "A"), some (.str "it"), some (.str "d"), none⟩ "t1",
               .post ⟨some (.str "B"), some (.str "it"), some (.str "d"), none⟩ "t2",
               .post ⟨some (.str "C"), some (.str "it"), some (.str "d"), none⟩ "t3"]))
            ⟨some (.str "Dd"), some (.str "it"), some (.str "d"), none⟩).1
          = .created ⟨4, .str "Dd", .str "it", .str "d", .null, "t4"⟩) := by
  refine ⟨fun α d defs h => loadData_saveData d defs h, ?_, by decide, by decide⟩
  intro ops
  have hc0 : coConsistent initCompanies := Or.inl ⟨rfl, rfl, rfl⟩
  have h0 : (1 : Int) ≤ initCompanies.nextCompanyId := by decide
  obtain ⟨h1, h2⟩ := coRun_inv ops initCompanies h0 hc0
  exact restartCompanies_eq _ h1 h2

/-- Witness for `companies_persistence_round_trip`: a concrete save/load
round-trip with a nonzero counter. -/
theorem companies_persistence_round_trip_witness :
    loadData (saveData ⟨3, [⟨1, .str "A", .str "it", .str "d", .null, "t1"⟩]⟩)
        (⟨1, []⟩ : PersistData Company) =
      ⟨3, [⟨1, .str "A", .str "it", .str "d", .null, "t1"⟩]⟩ :=
  companies_persistence_round_trip.1 Company
    ⟨3, [⟨1, .str "A", .str "it", .str "d", .null, "t1"⟩]⟩ ⟨1, []⟩ (by decide)

/-- C3: partial-update semantics of `PUT /api/classifieds/:id` — for every
existing classified, a body without a `price` key leaves the price at its
prior value, and a body with any explicit `price` (including `0`) stores that
value; concretely, a classified with price 100 keeps price 100 after
`PUT {title:"New"}`, and `PUT {price:0}` sets the price to 0. -/
theorem classified_put_price_semantics :
    (∀ (st : ClassifiedsState) (i : Int) (ad : Classified) (b : ClassifiedBody)
        (ad' : Classified) (st' : ClassifiedsState),
        st.classifieds.find? (fun a => a.id == i) = some ad →
        putClassified st i b = (.ok ad', st') →
        (b.price = none → ad'.price = ad.price) ∧
        (∀ v, b.price = some v → ad'.price = v))
    ∧ ((putClassified ⟨2, [⟨1, .str "Old", .str "D", .str "C", .num 100, "t0", "alice"⟩], .missing⟩
          1 ⟨some (.str "New"), none, none, none⟩).1
        = .ok ⟨1, .str "New", .str "D", .str "C", .num 100, "t0", "alice"⟩)
    ∧ ((putClassified ⟨2, [⟨1, .str "Old", .str "D", .str "C", .num 100, "t0", "alice"⟩], .missing⟩
          1 ⟨none, none, none, some (.num 0)⟩).1
        = .ok ⟨1, .str "Old", .str "D", .str "C", .num 0, "t0", "alice"⟩) := by
  refine ⟨?_, by decide, by decide⟩
  intro st i ad b ad' st' hfind hput
  simp only [putClassified, hfind] at hput
  rw [Prod.mk.injEq] at hput
  obtain ⟨h1, h2⟩ := hput
  obtain rfl := IdResp.ok.inj h1
  constructor
  · intro hp
    simp [applyClassifiedPut, jsIfDefined, hp]
  · intro v hp
    simp [applyClassifiedPut, jsIfDefined, hp]

/-- Witness for `classified_put_price_semantics`: the price-omitting update on
a concrete store keeps the stored price. -/
theorem classified_put_price_semantics_witness :
    (⟨1, .str "New", .str "D", .str "C", .num 100, "t0", "alice"⟩ : Classified).price =
      (⟨1, .str "Old", .str "D", .str "C", .num 100, "t0", "alice"⟩ : Classified).price :=
  (classified_put_price_semantics.1
      ⟨2, [⟨1, .str "Old", .str "D", .str "C", .num 100, "t0", "alice"⟩], .missing⟩ 1
      ⟨1, .str "Old", .str "D", .str "C", .num 100, "t0", "alice"⟩
      ⟨some (.str "New"), none, none, none⟩
      ⟨1, .str "New", .str "D", .str "C", .num 100, "t0", "alice"⟩
      ⟨2, [⟨1, .str "New", .str "D", .str "C", .num 100, "t0", "alice"⟩],
        .content ⟨some 2, some [⟨1, .str "New", .str "D", .str "C", .num 100, "t0", "alice"⟩]⟩⟩
      (by decide) (by decide)).1 rfl

/-- C8: authentication gate on persisted classified creation — whenever the
`Authorization` header is absent or does not resolve to a session token, the
response is 401 Unauthorized and the whole classifieds state (records,
counter and file) is unchanged, whatever the request body contains. -/
theorem classified_post_auth_gate :
    ∀ (sess : Sessions) (now : String) (st : ClassifiedsState) (auth : Option String)
      (b : ClassifiedBody),
      (auth = none ∨ ∀ tok, auth = some tok → lookupSession sess tok = none) →
      postClassified sess now st auth b = (.unauthorized, st) := by
  intro sess now st auth b h
  have hA : authHeaderUser sess auth = none := by
    cases auth with
    | none => rfl
    | some tok =>
        rcases h with h | h
        · simp at h
        · unfold authHeaderUser
          by_cases he : tok == ""
          · simp [he]
          · simp [he, h tok rfl]
  simp [postClassified, hA]

/-- Witness for `classified_post_auth_gate`: a fully valid body posted with no
`Authorization` header on a fresh store yields 401 and leaves the store
untouched. -/
theorem classified_post_auth_gate_witness :
    postClassified [("tok", ⟨"alice", "user"⟩)] "t0" ⟨1, [], .missing⟩ none
        ⟨some (.str "T"), some (.str "D"), some (.str "C"), none⟩ =
      (.unauthorized, ⟨1, [], .missing⟩) :=
  classified_post_auth_gate [("tok", ⟨"alice", "user"⟩)] "t0" ⟨1, [], .missing⟩ none
    ⟨some (.str "T"), some (.str "D"), some (.str "C"), none⟩ (Or.inl rfl)

theorem applyVacancyPut_id (v : Vacancy) (b : VacancyBody) :
    (applyVacancyPut v b).id = v.id := rfl

theorem applyClassifiedPut_id (ad : Classified) (b : ClassifiedBody) :
    (applyClassifiedPut ad b).id = ad.id := rfl

/-- C9: frame property of `PUT` — the field assignments of a vacancy or
classified update never touch `id` or `dateCreated`, and a successful `PUT` on
id `i` preserves the length of the collection, leaves every record whose id
differs from `i` exactly in place, and makes `GET` of any other id return an
identical record before and after the mutation. -/
theorem put_frame_property :
    (∀ (v : Vacancy) (b : VacancyBody),
        (applyVacancyPut v b).id = v.id ∧
        (applyVacancyPut v b).dateCreated = v.dateCreated)
    ∧ (∀ (ad : Classified) (b : ClassifiedBody),
        (applyClassifiedPut ad b).id = ad.id ∧
        (applyClassifiedPut ad b).dateCreated = ad.dateCreated)
    ∧ (∀ (st : VacanciesState) (i : Int) (b : VacancyBody) (v' : Vacancy)
          (st' : VacanciesState),
        putVacancy st i b = (.ok v', st') →
        st'.vacancies.length = st.vacancies.length ∧
        (∀ (k : Nat) (w : Vacancy), st.vacancies[k]? = some w → (w.id == i) = false →
          st'.vacancies[k]? = some w) ∧
        (∀ j : Int, j ≠ i → getVacancy st' j = getVacancy st j))
    ∧ (∀ (st : ClassifiedsState) (i : Int) (b : ClassifiedBody) (ad' : Classified)
          (st' : ClassifiedsState),
        putClassified st i b = (.ok ad', st') →
        st'.classifieds.length = st.classifieds.length ∧
        (∀ (k : Nat) (w : Classified), st.classifieds[k]? = some w → (w.id == i) = false →
          st'.classifieds[k]? = some w) ∧
        (∀ j : Int, j ≠ i → getClassified st' j = getClassified st j)) := by
  refine ⟨fun v b => ⟨rfl, rfl⟩, fun ad b => ⟨rfl, rfl⟩, ?_, ?_⟩
  · intro st i b v' st' h
    cases hf : st.vacancies.find? (fun v => v.id == i) with
    | none => simp [putVacancy, hf] at h
    | some v0 =>
        simp only [putVacancy, hf] at h
        rw [Prod.mk.injEq] at h
        obtain ⟨h1, h2⟩ := h
        subst h2
        refine ⟨updateFirst_length _ _ _, ?_, ?_⟩
        · intro k w hk hne
          exact updateFirst_getElem?_of_ne _ _ _ k w hk hne
        · intro j hj
          have hpres : ∀ x : Vacancy, (x.id == i) = true →
              ((x.id == j) = false ∧ ((applyVacancyPut x b).id == j) = false) := by
            intro x hx
            have hxi : x.id = i := by simpa using hx
            constructor
            · simp only [beq_eq_false_iff_ne, hxi]
              exact fun hij => hj hij.symm
            · rw [applyVacancyPut_id, hxi]
              simp only [beq_eq_false_iff_ne]
              exact fun hij => hj hij.symm
          unfold getVacancy
          rw [find?_updateFirst (fun w => w.id == i) (fun w => w.id == j)
            (fun w => applyVacancyPut w b) st.vacancies hpres]
  · intro st i b ad' st' h
    cases hf : st.classifieds.find? (fun a => a.id == i) with
    | none => simp [putClassified, hf] at h
    | some ad0 =>
        simp only [putClassified, hf] at h
        rw [Prod.mk.injEq] at h
        obtain ⟨h1, h2⟩ := h
        subst h2
        refine ⟨updateFirst_length _ _ _, ?_, ?_⟩
        · intro k w hk hne
          exact updateFirst_getElem?_of_ne _ _ _ k w hk hne
        · intro j hj
          have hpres : ∀ x : Classified, (x.id == i) = true →
              ((x.id == j) = false ∧ ((applyClassifiedPut x b).id == j) = false) := by
            intro x hx
            have hxi : x.id = i := by simpa using hx
            constructor
            · simp only [beq_eq_false_iff_ne, hxi]
              exact fun hij => hj hij.symm
            · rw [applyClassifiedPut_id, hxi]
              simp only [beq_eq_false_iff_ne]
              exact fun hij => hj hij.symm
          unfold getClassified
          rw [find?_updateFirst (fun a => a.id == i) (fun a => a.id == j)
            (fun a => applyClassifiedPut a b) st.classifieds hpres]

/-- Witness for `put_frame_property`: on a concrete two-vacancy store, a
successful `PUT` on id 1 leaves `GET` of id 2 identical. -/
theorem put_frame_property_witness :
    getVacancy ⟨3, [⟨1, .str "X", .str "Co1", .str "D1", .null, "t1"⟩,
        ⟨2, .str "T2", .str "Co2", .str "D2", .null, "t2"⟩],
        .content ⟨some 3, some [⟨1, .str "X", .str "Co1", .str "D1", .null, "t1"⟩,
          ⟨2, .str "T2", .str "Co2", .str "D2", .null, "t2"⟩]⟩⟩ 2 =
      getVacancy ⟨3, [⟨1, .str "T1", .str "Co1", .str "D1", .null, "t1"⟩,
        ⟨2, .str "T2", .str "Co2", .str "D2", .null, "t2"⟩], .missing⟩ 2 :=
  ((put_frame_property.2.2.1
      ⟨3, [⟨1, .str "T1", .str "Co1", .str "D1", .null, "t1"⟩,
        ⟨2, .str "T2", .str "Co2", .str "D2", .null, "t2"⟩], .missing⟩ 1
      ⟨some (.str "X"), none, none, none⟩
      ⟨1, .str "X", .str "Co1", .str "D1", .null, "t1"⟩
      ⟨3, [⟨1, .str "X", .str "Co1", .str "D1", .null, "t1"⟩,
        ⟨2, .str "T2", .str "Co2", .str "D2", .null, "t2"⟩],
        .content ⟨some 3, some [⟨1, .str "X", .str "Co1", .str "D1", .null, "t1"⟩,
          ⟨2, .str "T2", .str "Co2", .str "D2", .null, "t2"⟩]⟩⟩
      (by decide)).2.2) 2 (by decide)

/-- C10: the update handlers guard the required string fields with JavaScript
truthiness (`x || old` for classifieds, `if (x) r.f = x` for vacancies,
companies and real estate), so a `PUT` that explicitly supplies a falsy value
(`""`, `0`, `null`, `false`) for `title`, `description`, `category`,
`company`, `name` or `type` leaves that field at its prior value, while any
truthy value overwrites it. -/
theorem put_falsy_required_fields :
    (∀ (ad : Classified) (b : ClassifiedBody) (v : JVal), b.title = some v →
        (v.truthy = false → (applyClassifiedPut ad b).title = ad.title) ∧
        (v.truthy = true → (applyClassifiedPut ad b).title = v))
    ∧ (∀ (ad : Classified) (b : ClassifiedBody) (v : JVal), b.description = some v →
        (v.truthy = false → (applyClassifiedPut ad b).description = ad.description) ∧
        (v.truthy = true → (applyClassifiedPut ad b).description = v))
    ∧ (∀ (ad : Classified) (b : ClassifiedBody) (v : JVal), b.category = some v →
        (v.truthy = false → (applyClassifiedPut ad b).category = ad.category) ∧
        (v.truthy = true → (applyClassifiedPut ad b).category = v))
    ∧ (∀ (w : Vacancy) (b : VacancyBody) (v : JVal), b.title = some v →
        (v.truthy = false → (applyVacancyPut w b).title = w.title) ∧
        (v.truthy = true → (applyVacancyPut w b).title = v))
    ∧ (∀ (w : Vacancy) (b : VacancyBody) (v : JVal), b.company = some v →
        (v.truthy = false → (applyVacancyPut w b).company = w.company) ∧
        (v.truthy = true → (applyVacancyPut w b).company = v))
    ∧ (∀ (w : Vacancy) (b : VacancyBody) (v : JVal), b.description = some v →
        (v.truthy = false → (applyVacancyPut w b).description = w.description) ∧
        (v.truthy = true → (applyVacancyPut w b).description = v))
    ∧ (∀ (co : Company) (b : CompanyBody) (v : JVal), b.name = some v →
        (v.truthy = false → (applyCompanyPut co b).name = co.name) ∧
        (v.truthy = true → (applyCompanyPut co b).name = v))
    ∧ (∀ (co : Company) (b : CompanyBody) (v : JVal), b.category = some v →
        (v.truthy = false → (applyCompanyPut co b).category = co.category) ∧
        (v.truthy = true → (applyCompanyPut co b).category = v))
    ∧ (∀ (co : Company) (b : CompanyBody) (v : JVal), b.description = some v →
        (v.truthy = false → (applyCompanyPut co b).description = co.description) ∧
        (v.truthy = true → (applyCompanyPut co b).description = v))
    ∧ (∀ (p : Property) (b : PropertyBody) (v : JVal), b.type = some v →
        (v.truthy = false → (applyPropertyPut p b).type = p.type) ∧
        (v.truthy = true → (applyPropertyPut p b).type = v))
    ∧ (∀ (p : Property) (b : PropertyBody) (v : JVal), b.title = some v →
        (v.truthy = false → (applyPropertyPut p b).title = p.title) ∧
        (v.truthy = true → (applyPropertyPut p b).title = v))
    ∧ (∀ (p : Property) (b : PropertyBody) (v : JVal), b.description = some v →
        (v.truthy = false → (applyPropertyPut p b).description = p.description) ∧
        (v.truthy = true → (applyPropertyPut p b).description = v)) := by
  refine ⟨?_, ?_, ?_, ?_, ?_, ?_, ?_, ?_, ?_, ?_, ?_, ?_⟩ <;>
    (intro r b v hv
     constructor <;> intro ht <;>
       simp [applyClassifiedPut, applyVacancyPut, applyCompanyPut, applyPropertyPut,
         jsOr, hv, ht])

/-- Witness for `put_falsy_required_fields`: updating a concrete classified
with the explicit falsy title `""` leaves the title unchanged. -/
theorem put_falsy_required_fields_witness :
    (applyClassifiedPut ⟨1, .str "Old", .str "D", .str "C", .null, "t", "a"⟩
        ⟨some (.str ""), none, none, none⟩).title =
      (⟨1, .str "Old", .str "D", .str "C", .null, "t", "a"⟩ : Classified).title :=
  (put_falsy_required_fields.1 ⟨1, .str "Old", .str "D", .str "C", .null, "t", "a"⟩
      ⟨some (.str ""), none, none, none⟩ (.str "") rfl).1 (by decide)

/-- C4 counterexample: the in-memory classifieds creation stores
`price: price || null`, so an ad created with the explicit price `0` is stored
with price `null`, not `0`; and `POST /api/real-estate` stores
`location: location || null`, so an explicit falsy location (`""`) is stored
as `null`, not as the given value. -/
theorem creation_falsy_coercion_counterexample :
    (postRespField MemClassified.price
        (postClassifiedMem "t0" 1 []
          ⟨some (.str "Bike"), some (.str "Red"), some (.str "Sport"), some (.num 0)⟩).1
      = some JVal.null)
    ∧ JVal.null ≠ JVal.num 0
    ∧ (postRespField Property.location
        (postProperty "t0" ⟨1, [], .missing⟩
          ⟨some (.str "flat"), some (.str "Home"), some (.str "Nice"), none,
            some (.str "")⟩).1
      = some JVal.null)
    ∧ JVal.null ≠ JVal.str "" := by
  refine ⟨by decide, by decide, by decide, by decide⟩

/-- C4 (amended): creation fields guarded by `typeof x !== 'undefined'`
(persisted classifieds `price`, vacancy `salary`, company `rating`,
real-estate `price`) store any explicitly provided value, including falsy
ones such as `0`; but the in-memory classifieds creation coerces a falsy
`price` to `null` (`price || null`), and real-estate creation coerces a falsy
`location` to `null` (`location || null`). -/
theorem creation_falsy_amended :
    (∀ (sess : Sessions) (now : String) (st : ClassifiedsState) (auth : Option String)
        (b : ClassifiedBody) (u : Session) (v : JVal),
        authHeaderUser sess auth = some u →
        truthyOpt b.title = true → truthyOpt b.description = true →
        truthyOpt b.category = true → b.price = some v →
        postClassifiedRespPrice (postClassified sess now st auth b).1 = some v)
    ∧ (∀ (now : String) (st : VacanciesState) (b : VacancyBody) (v : JVal),
        truthyOpt b.title = true → truthyOpt b.company = true →
        truthyOpt b.description = true → b.salary = some v →
        postRespField Vacancy.salary (postVacancy now st b).1 = some v)
    ∧ (∀ (now : String) (st : CompaniesState) (b : CompanyBody) (v : JVal),
        truthyOpt b.name = true → truthyOpt b.category = true →
        truthyOpt b.description = true → b.rating = some v →
        postRespField Company.rating (postCompany now st b).1 = some v)
    ∧ (∀ (now : String) (st : RealEstateState) (b : PropertyBody) (v : JVal),
        truthyOpt b.type = true → truthyOpt b.title = true →
        truthyOpt b.description = true → b.price = some v →
        postRespField Property.price (postProperty now st b).1 = some v)
    ∧ (∀ (now : String) (n : Int) (cls : List MemClassified) (b : ClassifiedBody) (v : JVal),
        truthyOpt b.title = true → truthyOpt b.description = true →
        truthyOpt b.category = true → b.price = some v → v.truthy = false →
        postRespField MemClassified.price (postClassifiedMem now n cls b).1 = some .null)
    ∧ (∀ (now : String) (st : RealEstateState) (b : PropertyBody) (v : JVal),
        truthyOpt b.type = true → truthyOpt b.title = true →
        truthyOpt b.description = true → b.location = some v → v.truthy = false →
        postRespField Property.location (postProperty now st b).1 = some .null) := by
  refine ⟨?_, ?_, ?_, ?_, ?_, ?_⟩
  · intro sess now st auth b u v hA h1 h2 h3 hp
    simp [postClassified, hA, h1, h2, h3, postClassifiedRespPrice, jsIfDefined, hp]
  · intro now st b v h1 h2 h3 hp
    simp [postVacancy, h1, h2, h3, postRespField, jsIfDefined, hp]
  · intro now st b v h1 h2 h3 hp
    simp [postCompany, h1, h2, h3, postRespField, jsIfDefined, hp]
  · intro now st b v h1 h2 h3 hp
    simp [postProperty, h1, h2, h3, postRespField, jsIfDefined, hp]
  · intro now n cls b v h1 h2 h3 hp hv
    simp [postClassifiedMem, h1, h2, h3, postRespField, jsOr, hp, hv]
  · intro now st b v h1 h2 h3 hp hv
    simp [postProperty, h1, h2, h3, postRespField, jsOr, hp, hv]

/-- Witness for `creation_falsy_amended`: a persisted classified created with
the explicit price `0` stores price `0`. -/
theorem creation_falsy_amended_witness :
    postClassifiedRespPrice
        (postClassified [("tok", ⟨"alice", "user"⟩)] "t0" ⟨1, [], .missing⟩ (some "tok")
          ⟨some (.str "T"), some (.str "D"), some (.str "C"), some (.num 0)⟩).1 =
      some (JVal.num 0) :=
  creation_falsy_amended.1 [("tok", ⟨"alice", "user"⟩)] "t0" ⟨1, [], .missing⟩ (some "tok")
    ⟨some (.str "T"), some (.str "D"), some (.str "C"), some (.num 0)⟩ ⟨"alice", "user"⟩
    (.num 0) (by decide) (by decide) (by decide) (by decide) rfl

/-- C7 counterexample: a readable, well-formed data file that stores
`{ nextId: 0, items: [] }` does not load back its stored counter — the falsy
`0` is replaced by the caller-supplied default `1`. -/
theorem loadData_falsy_counterexample :
    loadData (FileSt.content ⟨some 0, some []⟩)
        ({ nextId := 1, items := [] } : PersistData Company) =
      { nextId := 1, items := [] } ∧ (0 : Int) ≠ 1 := by
  refine ⟨by decide, by decide⟩

/-- C7 (amended): `loadData` is total — a missing, unreadable or malformed
file yields the caller-supplied defaults; a readable well-formed file yields
the stored `nextId` and `items`, except that a falsy stored `nextId` (`0` or
absent) falls back to the default counter, and an absent `items` field falls
back to the default items. -/
theorem loadData_amended :
    (∀ {α : Type} (d : PersistData α), loadData .missing d = d ∧ loadData .corrupt d = d)
    ∧ (∀ {α : Type} (n : Int) (items : List α) (d : PersistData α), n ≠ 0 →
        loadData (.content ⟨some n, some items⟩) d = ⟨n, items⟩)
    ∧ (∀ {α : Type} (items : Option (List α)) (d : PersistData α),
        (loadData (.content ⟨some 0, items⟩) d).nextId = d.nextId)
    ∧ (∀ {α : Type} (items : Option (List α)) (d : PersistData α),
        (loadData (.content ⟨none, items⟩) d).nextId = d.nextId)
    ∧ (∀ {α : Type} (nid : Option Int) (d : PersistData α),
        (loadData (.content ⟨nid, none⟩) d).items = d.items) := by
  refine ⟨?_, ?_, ?_, ?_, ?_⟩
  · intro α d
    exact ⟨rfl, rfl⟩
  · intro α n items d h
    simp [loadData, h]
  · intro α items d
    simp [loadData]
  · intro α items d
    simp [loadData]
  · intro α nid d
    simp [loadData]

/-- Witness for `loadData_amended`: a concrete well-formed companies file with
a nonzero counter loads back exactly its stored contents. -/
theorem loadData_amended_witness :
    loadData (FileSt.content ⟨some 5, some [⟨1, .str "A", .str "it", .str "d", .null, "t"⟩]⟩)
        ({ nextId := 1, items := [] } : PersistData Company) =
      ⟨5, [⟨1, .str "A", .str "it", .str "d", .null, "t"⟩]⟩ :=
  loadData_amended.2.1 5 ([⟨1, .str "A", .str "it", .str "d", .null, "t"⟩] : List Company)
    (⟨1, []⟩ : PersistData Company) (by decide)

/-- C5: vacancy filtering — `?minSalary=M` returns exactly the vacancies of
the list whose salary is non-null and at least `M` (for lists whose salaries
are numbers or null, the source's domain), preserving order; `?category=S`
returns exactly the vacancies whose company name contains `S`
case-insensitively; on `[Acme Corp/1000, Beta LLC/5000]`, `minSalary=2000`
returns only the Beta LLC entry and `category=acme` only the Acme entry. -/
theorem vacancies_filtering :
    (∀ (vs : List Vacancy) (m : Int),
        (∀ v ∈ vs, v.salary = .null ∨ ∃ n, v.salary = .num n) →
        ((getVacancies vs ⟨none, some m⟩).Sublist vs ∧
         ∀ v, v ∈ getVacancies vs ⟨none, some m⟩ ↔
           v ∈ vs ∧ v.salary ≠ .null ∧ ∃ n, v.salary = .num n ∧ m ≤ n))
    ∧ (∀ (vs : List Vacancy) (s : String), s ≠ "" →
        (∀ v ∈ vs, ∃ cs, v.company = .str cs) →
        ((getVacancies vs ⟨some s, none⟩).Sublist vs ∧
         ∀ v, v ∈ getVacancies vs ⟨some s, none⟩ ↔
           v ∈ vs ∧ ∃ cs, v.company = .str cs ∧ strIncludes (strLower cs) (strLower s) = true))
    ∧ (getVacancies [⟨1, .str "Dev", .str "Acme Corp", .str "Job", .num 1000, "t1"⟩,
          ⟨2, .str "Ops", .str "Beta LLC", .str "Job", .num 5000, "t2"⟩] ⟨none, some 2000⟩
        = [⟨2, .str "Ops", .str "Beta LLC", .str "Job", .num 5000, "t2"⟩])
    ∧ (getVacancies [⟨1, .str "Dev", .str "Acme Corp", .str "Job", .num 1000, "t1"⟩,
          ⟨2, .str "Ops", .str "Beta LLC", .str "Job", .num 5000, "t2"⟩] ⟨some "acme", none⟩
        = [⟨1, .str "Dev", .str "Acme Corp", .str "Job", .num 1000, "t1"⟩]) := by
  refine ⟨?_, ?_, by decide, by decide⟩
  · intro vs m _
    constructor
    · simp only [getVacancies]
      exact List.filter_sublist vs
    · intro v
      simp only [getVacancies]
      rw [List.mem_filter]
      constructor
      · rintro ⟨hmem, hpred⟩
        rw [Bool.and_eq_true] at hpred
        obtain ⟨hne, hge⟩ := hpred
        refine ⟨hmem, by simpa using hne, ?_⟩
        cases hs : v.salary with
        | num n =>
            rw [hs] at hge
            exact ⟨n, rfl, by simpa [JVal.geNum] using hge⟩
        | null => rw [hs] at hge; simp [JVal.geNum] at hge
        | str s => rw [hs] at hge; simp [JVal.geNum] at hge
        | boolean b => rw [hs] at hge; simp [JVal.geNum] at hge
      · rintro ⟨hmem, hne, n, hsn, hmn⟩
        exact ⟨hmem, by simp [hsn, JVal.geNum, hmn]⟩
  · intro vs s hs _
    have hs' : (s != "") = true := by simpa using hs
    constructor
    · simp only [getVacancies, hs', if_true]
      exact List.filter_sublist vs
    · intro v
      simp only [getVacancies, hs', if_true]
      rw [List.mem_filter]
      constructor
      · rintro ⟨hmem, hpred⟩
        refine ⟨hmem, ?_⟩
        cases hc : v.company with
        | str cs =>
            rw [companyMatches, hc] at hpred
            exact ⟨cs, rfl, hpred⟩
        | null => rw [companyMatches, hc] at hpred; simp at hpred
        | num n => rw [companyMatches, hc] at hpred; simp at hpred
        | boolean b => rw [companyMatches, hc] at hpred; simp at hpred
      · rintro ⟨hmem, cs, hc, hinc⟩
        refine ⟨hmem, ?_⟩
        rw [companyMatches, hc]
        exact hinc

/-- Witness for `vacancies_filtering`: the `minSalary` filter applied to the
spec's concrete two-vacancy list yields a sublist of it. -/
theorem vacancies_filtering_witness :
    (getVacancies [⟨1, .str "Dev", .str "Acme Corp", .str "Job", .num 1000, "t1"⟩,
        ⟨2, .str "Ops", .str "Beta LLC", .str "Job", .num 5000, "t2"⟩]
      ⟨none, some 2000⟩).Sublist
      [⟨1, .str "Dev", .str "Acme Corp", .str "Job", .num 1000, "t1"⟩,
       ⟨2, .str "Ops", .str "Beta LLC", .str "Job", .num 5000, "t2"⟩] :=
  (vacancies_filtering.1 [⟨1, .str "Dev", .str "Acme Corp", .str "Job", .num 1000, "t1"⟩,
      ⟨2, .str "Ops", .str "Beta LLC", .str "Job", .num 5000, "t2"⟩] 2000
    (by
      intro v hv
      rcases List.mem_cons.mp hv with rfl | hv
      · exact Or.inr ⟨1000, rfl⟩
      · rcases List.mem_cons.mp hv with rfl | hv
        · exact Or.inr ⟨5000, rfl⟩
        · simp at hv)).1

/-- C6: real-estate filtering — `?type=T` returns exactly the properties
whose type equals `T` under case-insensitive exact match (a proper substring
of the type does not match), `?minPrice=M` returns exactly those with
non-null price at least `M` (for lists whose prices are numbers or null, the
source's domain), and every filtered result is a sublist of the collection,
hence preserves insertion order. -/
theorem realestate_filtering :
    (∀ (ps : List Property) (t : String), t ≠ "" →
        (∀ p ∈ ps, ∃ s, p.type = .str s) →
        ((getRealEstate ps ⟨some t, none⟩).Sublist ps ∧
         ∀ p, p ∈ getRealEstate ps ⟨some t, none⟩ ↔
           p ∈ ps ∧ ∃ s, p.type = .str s ∧ strLower s = strLower t))
    ∧ (∀ (ps : List Property) (m : Int),
        (∀ p ∈ ps, p.price = .null ∨ ∃ n, p.price = .num n) →
        ((getRealEstate ps ⟨none, some m⟩).Sublist ps ∧
         ∀ p, p ∈ getRealEstate ps ⟨none, some m⟩ ↔
           p ∈ ps ∧ p.price ≠ .null ∧ ∃ n, p.price = .num n ∧ m ≤ n))
    ∧ (∀ (ps : List Property) (q : PropertyQuery), (getRealEstate ps q).Sublist ps)
    ∧ (getRealEstate [⟨1, .str "apartment", .str "H", .str "D", .null, .null, "t"⟩]
        ⟨some "apart", none⟩ = [])
    ∧ (getRealEstate [⟨1, .str "apartment", .str "H", .str "D", .null, .null, "t"⟩]
        ⟨some "APARTMENT", none⟩
        = [⟨1, .str "apartment", .str "H", .str "D", .null, .null, "t"⟩]) := by
  refine ⟨?_, ?_, ?_, by decide, by decide⟩
  · intro ps t ht _
    have ht' : (t != "") = true := by simpa using ht
    constructor
    · simp only [getRealEstate, ht', if_true]
      exact List.filter_sublist ps
    · intro p
      simp only [getRealEstate, ht', if_true]
      rw [List.mem_filter]
      constructor
      · rintro ⟨hmem, hpred⟩
        refine ⟨hmem, ?_⟩
        cases hc : p.type with
        | str s =>
            rw [typeMatches, hc] at hpred
            exact ⟨s, rfl, by simpa using hpred⟩
        | null => rw [typeMatches, hc] at hpred; simp at hpred
        | num n => rw [typeMatches, hc] at hpred; simp at hpred
        | boolean b => rw [typeMatches, hc] at hpred; simp at hpred
      · rintro ⟨hmem, s, hc, heq⟩
        refine ⟨hmem, ?_⟩
        rw [typeMatches, hc]
        simpa using heq
  · intro ps m _
    constructor
    · simp only [getRealEstate]
      exact List.filter_sublist ps
    · intro p
      simp only [getRealEstate]
      rw [List.mem_filter]
      constructor
      · rintro ⟨hmem, hpred⟩
        rw [Bool.and_eq_true] at hpred
        obtain ⟨hne, hge⟩ := hpred
        refine ⟨hmem, by simpa using hne, ?_⟩
        cases hs : p.price with
        | num n =>
            rw [hs] at hge
            exact ⟨n, rfl, by simpa [JVal.geNum] using hge⟩
        | null => rw [hs] at hge; simp [JVal.geNum] at hge
        | str s => rw [hs] at hge; simp [JVal.geNum] at hge
        | boolean b => rw [hs] at hge; simp [JVal.geNum] at hge
      · rintro ⟨hmem, hne, n, hsn, hmn⟩
        exact ⟨hmem, by simp [hsn, JVal.geNum, hmn]⟩
  · intro ps q
    obtain ⟨tq, mq⟩ := q
    cases tq with
    | none =>
        cases mq with
        | none => exact List.Sublist.refl ps
        | some m =>
            simp only [getRealEstate]
            exact List.filter_sublist ps
    | some t =>
        cases mq with
        | none =>
            simp only [getRealEstate]
            split
            · exact List.filter_sublist ps
            · exact List.Sublist.refl ps
        | some m =>
            simp only [getRealEstate]
            split
            · exact (List.filter_sublist _).trans (List.filter_sublist ps)
            · exact List.filter_sublist ps

/-- Witness for `realestate_filtering`: the case-insensitive exact `type`
filter applied to a concrete one-property list yields a sublist of it. -/
theorem realestate_filtering_witness :
    (getRealEstate [⟨1, .str "apartment", .str "H", .str "D", .null, .null, "t"⟩]
      ⟨some "APARTMENT", none⟩).Sublist
      [⟨1, .str "apartment", .str "H", .str "D", .null, .null, "t"⟩] :=
  (realestate_filtering.1 [⟨1, .str "apartment", .str "H", .str "D", .null, .null, "t"⟩]
    "APARTMENT" (by decide)
    (by
      intro p hp
      rcases List.mem_cons.mp hp with rfl | hp
      · exact ⟨"apartment", rfl⟩
      · simp at hp)).1
